import Mathlib

/-!
Verification development for the werf synchronization-server command
(`cmd/werf/synchronization`, shown in `pkg/deploy/helm/init.go` excerpt) and the
buildah container backend (`pkg/container_backend`, shown in the unnamed part).

The Go code is shallowly embedded: pure configuration computations become Lean
functions, the external buildah engine becomes an explicit oracle record, and
Go's `(value, error)` returns become `Except`/explicit result types.
-/

namespace Werf

/-! ## Go `path/filepath` (Unix) model

`runSynchronization` calls `filepath.Join`, which joins the non-empty elements
with `/` and then applies `filepath.Clean` (lexical processing: collapse
repeated separators, drop `.` elements, resolve `..` against the preceding
element, keep rootedness).  We model paths as their character lists. -/

/-- The characters of the `..` path element. -/
def dotdot : List Char := ['.', '.']

/-- Split a character list into the `/`-separated components; `acc` holds the
(reversed) characters of the component currently being read. -/
def splitComps : List Char → List Char → List (List Char)
  | acc, [] => [acc.reverse]
  | acc, c :: rest =>
    if c = '/' then acc.reverse :: splitComps [] rest
    else splitComps (c :: acc) rest

/-- `Clean` keeps a component iff it is neither empty (repeated separators,
leading/trailing separator) nor the `.` element. -/
def keepComp (c : List Char) : Bool := c != [] && c != ['.']

/-- Resolve `..` components against a stack of already-emitted components, as
Go's `filepath.Clean` does: `..` pops a preceding non-`..` component, is kept
after a leading run of `..` in a relative path, and is dropped at the root of
a rooted path. -/
def resolveStack (rooted : Bool) : List (List Char) → List (List Char) → List (List Char)
  | stack, [] => stack
  | [], c :: cs =>
    if c = dotdot then resolveStack rooted (if rooted then [] else [dotdot]) cs
    else resolveStack rooted [c] cs
  | top :: rest, c :: cs =>
    if c = dotdot then
      (if top = dotdot then resolveStack rooted (c :: top :: rest) cs
       else resolveStack rooted rest cs)
    else resolveStack rooted (c :: top :: rest) cs

/-- Join components with a single `/` separator. -/
def intercalateSlash : List (List Char) → List Char
  | [] => []
  | [c] => c
  | c :: cs => c ++ '/' :: intercalateSlash cs

/-- Is the path absolute (first character a separator)? -/
def isRooted (p : List Char) : Bool :=
  match p with
  | [] => false
  | c :: _ => c == '/'

/-- The cleaned component list of a path: split, drop empty/`.` components,
resolve `..`. -/
def cleanResolved (p : List Char) : List (List Char) :=
  (resolveStack (isRooted p) [] ((splitComps [] p).filter keepComp)).reverse

/-- Go's `filepath.Clean` (Unix), on character lists. -/
def goCleanData (p : List Char) : List Char :=
  if p = [] then ['.']
  else if isRooted p then '/' :: intercalateSlash (cleanResolved p)
  else if cleanResolved p = [] then ['.']
  else intercalateSlash (cleanResolved p)

/-- Go's variadic `filepath.Join` on character lists: drop empty elements,
join the rest with `/`, and `Clean` the result (`""` when all are empty). -/
def goJoinData (elems : List (List Char)) : List Char :=
  let parts := elems.filter (fun e => !e.isEmpty)
  if parts = [] then [] else goCleanData (intercalateSlash parts)

/-- `filepath.Join(a, b)`. -/
def goJoin (a b : String) : String := String.mk (goJoinData [a.data, b.data])

/-- `filepath.Join(a, b, c)`. -/
def goJoin3 (a b c : String) : String := String.mk (goJoinData [a.data, b.data, c.data])

/-! ## The synchronization command's configuration (`cmd/werf/synchronization`) -/

/-- The `cmdData` flag structure of the synchronization command.  Each field's
default already incorporates the corresponding `WERF_*` environment variable
(cobra installs `os.Getenv(...)` as the flag default), so an empty string means
"supplied by neither flag nor environment". -/
structure CmdData where
  kubernetes : Bool
  kubernetesNamespacePrefix : String
  localFlag : Bool
  localLockManagerBaseDir : String
  localStagesStorageCacheBaseDir : String
  ttl : String
  host : String
  port : String

/-- The storage location a factory function roots a per-client instance at:
a filesystem directory for the local backend (`lockgate.NewFileLocker` /
`NewFileStagesStorageCache` base dir) or a namespace name for the kubernetes
backend (`NewKubernetesLockManager` / `NewKubernetesStagesStorageCache`). -/
inductive StorageLocation where
  | localDir (path : String)
  | kubernetesNamespace (name : String)
deriving DecidableEq

/-- Is the location a cluster (kubernetes) one? -/
def StorageLocation.isCluster : StorageLocation → Bool
  | .kubernetesNamespace _ => true
  | .localDir _ => false

/-- What `runSynchronization` hands to `RunSynchronizationServer`: the bind
host and port, and the two per-clientID factory functions (modelled by the
storage location each factory roots its instance at). -/
structure SyncServerConfig where
  host : String
  port : String
  lockManagerLocation : String → StorageLocation
  stagesStorageCacheLocation : String → StorageLocation

/-- The pure configuration computation of `runSynchronization`.  `homeDir`
stands for `werf.GetHomeDir()` (established by `werf.Init`).  External side
effects (`werf.Init`, `kube.Init`, `InitKubedog`, actually serving) are elided;
the value built here is exactly what is passed to `RunSynchronizationServer`. -/
def runSynchronization (homeDir : String) (d : CmdData) : SyncServerConfig :=
  let host := if d.host = "" then "localhost" else d.host
  let port := if d.port = "" then "55581" else d.port
  if d.kubernetes then
    let nsPrefix :=
      if d.kubernetesNamespacePrefix = "" then "werf-synchronization-"
      else d.kubernetesNamespacePrefix
    { host := host, port := port
      lockManagerLocation := fun clientID =>
        StorageLocation.kubernetesNamespace (nsPrefix ++ clientID)
      stagesStorageCacheLocation := fun clientID =>
        StorageLocation.kubernetesNamespace (nsPrefix ++ clientID) }
  else
    let lockManagerBaseDir :=
      if d.localLockManagerBaseDir = "" then
        goJoin3 homeDir "synchronization_server" "lock_manager"
      else d.localLockManagerBaseDir
    let stagesStorageCacheBaseDir :=
      if d.localStagesStorageCacheBaseDir = "" then
        goJoin3 homeDir "synchronization_server" "stages_storage_cache"
      else d.localStagesStorageCacheBaseDir
    { host := host, port := port
      lockManagerLocation := fun clientID =>
        StorageLocation.localDir (goJoin lockManagerBaseDir clientID)
      stagesStorageCacheLocation := fun clientID =>
        StorageLocation.localDir (goJoin stagesStorageCacheBaseDir clientID) }

/-! ## The buildah container backend (`pkg/container_backend`)

The `buildah.Buildah` engine is external to the excerpt; we model it as an
oracle record whose operations return `Except String` values (a Go
`(value, error)` pair with `err ≠ nil` mapped to `.error`).  The backend
methods below are direct translations of `BuildahBackend`'s bodies. -/

/-- Split a character list at the first occurrence of `sep`:
`some (before, after)` when `sep` occurs, `none` otherwise.  This models
`strings.SplitN(s, sep, 2)`, which yields `[s]` (length 1) when `sep` is
absent and `[before, after]` otherwise. -/
def splitFirst (sep : Char) : List Char → Option (List Char × List Char)
  | [] => none
  | c :: rest =>
    if c = sep then some ([], rest)
    else
      match splitFirst sep rest with
      | some (a, b) => some (c :: a, b)
      | none => none

/-- A `specs.Mount` as built in `BuildStapelStage` (`Type` is `"bind"`; the
Go field `Type` is spelled `MountType` because `Type` is reserved in Lean). -/
structure Mount where
  MountType : String
  Source : String
  Destination : String
deriving DecidableEq

/-- Outcome of a step of Go code that may `panic` in addition to returning an
error: `ok`, a returned non-nil error, or a panic with its message. -/
inductive StepResult (α : Type) where
  | ok (a : α)
  | err (e : String)
  | panicked (msg : String)
deriving DecidableEq

/-- Outcome of `BuildStapelStage`: a normal Go return `(imgID, err)` or a
panic. -/
inductive StageResult where
  | ret (imgID : String) (err : Option String)
  | panicked (msg : String)
deriving DecidableEq

/-- The external buildah engine operations used by the backend methods under
verification.  Result values the Go code discards are still produced by the
oracle; the deferred `Umount`/commented-out `Rm` calls have no observable
effect in the excerpt and are elided. -/
structure BuildahOracle where
  fromCommand : String → String → Except String String
  mount : String → Except String String
  runCommand : String → List String → List Mount → Except String Unit
  config : String → List (String × String) → Except String Unit
  commit : String → Except String String

/-- `BuildStapelStageOpts` (fields used by `BuildStapelStage`; prepare-container
actions are modelled by their `PrepareContainer(containerRoot)` behaviour). -/
structure BuildStapelStageOpts where
  PrepareContainerActions : List (String → Except String Unit)
  UserCommands : List String
  BuildVolumes : List String
  Labels : List (String × String)

/-- The prepare-container loop body: run each action against the mounted
container root, wrapping the first failure. -/
def runPrepareActions (containerRoot : String) :
    List (String → Except String Unit) → Except String Unit
  | [] => Except.ok ()
  | a :: rest =>
    match a containerRoot with
    | Except.error e =>
        Except.error ("unable to prepare container in \"" ++ containerRoot ++ "\": " ++ e)
    | Except.ok _ => runPrepareActions containerRoot rest

/-- The prepare-container phase of `BuildStapelStage`: when actions are
present, mount the container root and run each action (the deferred unmount
has no observable result). -/
def prepareStage (b : BuildahOracle) (containerID : String)
    (actions : List (String → Except String Unit)) : Except String Unit :=
  if 0 < actions.length then
    match b.mount containerID with
    | Except.error e =>
        Except.error ("unable to mount container \"" ++ containerID ++ "\" root dir: " ++ e)
    | Except.ok containerRoot => runPrepareActions containerRoot actions
  else Except.ok ()

/-- The bind-mount construction of the user-command loop: each `BuildVolumes`
entry is split by `strings.SplitN(volume, ":", 2)`; fewer than two parts (no
`:` in the entry) is a `panic`. -/
def parseVolumes : List String → StepResult (List Mount)
  | [] => StepResult.ok []
  | v :: rest =>
    match splitFirst ':' v.data with
    | none =>
        StepResult.panicked ("invalid volume \"" ++ v ++ "\": expected SOURCE:DESTINATION format")
    | some (src, dst) =>
      match parseVolumes rest with
      | StepResult.ok ms =>
          StepResult.ok ({ MountType := "bind", Source := String.mk src,
                           Destination := String.mk dst } :: ms)
      | StepResult.err e => StepResult.err e
      | StepResult.panicked m => StepResult.panicked m

/-- The user-command loop of `BuildStapelStage`: for each command, rebuild the
bind mounts from `BuildVolumes` (panicking on a malformed entry) and run the
command via `sh -c`, wrapping the first failure. -/
def runUserCommands (b : BuildahOracle) (containerID : String) (volumes : List String) :
    List String → StepResult Unit
  | [] => StepResult.ok ()
  | cmd :: rest =>
    match parseVolumes volumes with
    | StepResult.panicked m => StepResult.panicked m
    | StepResult.err e => StepResult.err e
    | StepResult.ok mounts =>
      match b.runCommand containerID ["sh", "-c", cmd] mounts with
      | Except.error e => StepResult.err ("unable to run \"" ++ cmd ++ "\": " ++ e)
      | Except.ok _ => runUserCommands b containerID volumes rest

/-- `BuildahBackend.BuildStapelStage`: create a build container from the base
image, run the prepare-container phase, run the user commands, set the labels,
and commit; each Go `return "", err` becomes `.ret "" (some msg)`.  The
container name is `werf-stage-build-<uuid>` with `uuid` the fresh
`uuid.New().String()` value, taken as a parameter. -/
def BuildStapelStage (b : BuildahOracle) (uuid baseImage : String)
    (opts : BuildStapelStageOpts) : StageResult :=
  let containerID := "werf-stage-build-" ++ uuid
  match b.fromCommand containerID baseImage with
  | Except.error e =>
      StageResult.ret ""
        (some ("unable to create container using base image \"" ++ baseImage ++ "\": " ++ e))
  | Except.ok _ =>
    match prepareStage b containerID opts.PrepareContainerActions with
    | Except.error e => StageResult.ret "" (some e)
    | Except.ok _ =>
      match runUserCommands b containerID opts.BuildVolumes opts.UserCommands with
      | StepResult.panicked m => StageResult.panicked m
      | StepResult.err e => StageResult.ret "" (some e)
      | StepResult.ok _ =>
        match b.config containerID opts.Labels with
        | Except.error e =>
            StageResult.ret ""
              (some ("unable to set container \"" ++ containerID ++ "\" config: " ++ e))
        | Except.ok _ =>
          match b.commit containerID with
          | Except.error e =>
              StageResult.ret ""
                (some ("unable to commit container \"" ++ containerID ++ "\": " ++ e))
          | Except.ok imgID => StageResult.ret imgID none

/-- The `Docker.Config` part of a buildah inspect (fields read by
`GetImageInfo`; the Go field `Image` holds the parent image identifier). -/
structure DockerConfig where
  Labels : List (String × String)
  OnBuild : List String
  Image : String
deriving DecidableEq

/-- The `Docker` part of a buildah inspect; `Created` is the creation time as
unix nanoseconds (`Created.UnixNano()` in Go). -/
structure DockerInspect where
  ID : String
  Created : Int
  Size : Int
  Config : DockerConfig
deriving DecidableEq

/-- A buildah inspect result. -/
structure BuildahInspect where
  Docker : DockerInspect
deriving DecidableEq

/-- `image.Info` (fields populated by `GetImageInfo`). -/
structure ImageInfo where
  Name : String
  Repository : String
  Tag : String
  Labels : List (String × String)
  CreatedAtUnixNano : Int
  OnBuild : List String
  ID : String
  ParentID : String
  Size : Int
deriving DecidableEq

/-- `BuildahBackend.GetImageInfo`: look the reference up via the engine's
`Inspect` (oracle `inspect`, returning `.ok none` for an absent reference),
returning `nil, nil` (here `.ok none`) when absent and a populated
`image.Info` otherwise.  `image.ParseRepositoryAndTag` lives outside the
excerpt and is passed as the function `parseRepoTag`. -/
def GetImageInfo (inspect : String → Except String (Option BuildahInspect))
    (parseRepoTag : String → String × String) (ref : String) :
    Except String (Option ImageInfo) :=
  match inspect ref with
  | Except.error e =>
      Except.error ("error getting buildah inspect of \"" ++ ref ++ "\": " ++ e)
  | Except.ok none => Except.ok none
  | Except.ok (some i) =>
      Except.ok (some
        { Name := ref
          Repository := (parseRepoTag ref).1
          Tag := (parseRepoTag ref).2
          Labels := i.Docker.Config.Labels
          CreatedAtUnixNano := i.Docker.Created
          OnBuild := i.Docker.Config.OnBuild
          ID := i.Docker.ID
          ParentID := i.Docker.Config.Image
          Size := i.Docker.Size })

/-- `BuildDockerfileOpts` (fields used by `BuildDockerfile`; the context tar
stream is abstracted to a string). -/
structure BuildDockerfileOpts where
  ContextTar : String
  BuildArgs : List String
  Target : String

/-- The build-args loop of `BuildDockerfile`: split each argument at its first
`=` (`strings.SplitN(argStr, "=", 2)`), failing on the first argument without
one.  The Go `map[string]string` is represented by the association list of the
split pairs in argument order. -/
def parseBuildArgs : List String → Except String (List (String × String))
  | [] => Except.ok []
  | a :: rest =>
    match splitFirst '=' a.data with
    | none =>
        Except.error ("invalid build argument \"" ++ a
          ++ "\" given, expected string in the key=value format")
    | some (k, v) =>
      match parseBuildArgs rest with
      | Except.error e => Except.error e
      | Except.ok m => Except.ok ((String.mk k, String.mk v) :: m)

/-- `BuildahBackend.BuildDockerfile`: parse the build arguments, then invoke
the engine's `BuildFromDockerfile` (oracle `engine`) with the dockerfile, the
context tar, the parsed arguments and the target. -/
def BuildDockerfile
    (engine : String → String → List (String × String) → String → Except String String)
    (dockerfile : String) (opts : BuildDockerfileOpts) : Except String String :=
  match parseBuildArgs opts.BuildArgs with
  | Except.error e => Except.error e
  | Except.ok m => engine dockerfile opts.ContextTar m opts.Target

/-! ## Concrete instances used by witnesses and counterexamples -/

/-- A client identifier that is a clean, separator-free path component: the
regime in which the local backend's `filepath.Join(baseDir, clientID)` is
injective in the clientID. -/
def validCompData (c : List Char) : Prop :=
  c ≠ [] ∧ '/' ∉ c ∧ c ≠ ['.'] ∧ c ≠ dotdot

instance (c : List Char) : Decidable (validCompData c) := by
  unfold validCompData; infer_instance

/-- `validCompData` on a string clientID. -/
def validClientID (c : String) : Prop := validCompData c.data

instance (c : String) : Decidable (validClientID c) := by
  unfold validClientID; infer_instance

/-- The per-element split `BuildDockerfile` performs on a well-formed build
argument: key before the first `=`, remainder after it. -/
def splitKV (a : String) : String × String :=
  match splitFirst '=' a.data with
  | some (k, v) => (String.mk k, String.mk v)
  | none => (a, "")

/-- Concrete configuration: Kubernetes mode, everything else defaulted. -/
def kubeCmdData : CmdData :=
  { kubernetes := true, kubernetesNamespacePrefix := "", localFlag := false,
    localLockManagerBaseDir := "", localStagesStorageCacheBaseDir := "",
    ttl := "", host := "", port := "" }

/-- Concrete configuration: local mode, everything defaulted. -/
def localCmdData : CmdData :=
  { kubernetes := false, kubernetesNamespacePrefix := "", localFlag := true,
    localLockManagerBaseDir := "", localStagesStorageCacheBaseDir := "",
    ttl := "", host := "", port := "" }

/-- Concrete configuration: local mode with explicit base directories. -/
def cexCmdData : CmdData :=
  { kubernetes := false, kubernetesNamespacePrefix := "", localFlag := true,
    localLockManagerBaseDir := "/base/lock",
    localStagesStorageCacheBaseDir := "/base/cache",
    ttl := "", host := "", port := "" }

/-- The success condition of `BuildStapelStage`, step by step: container
creation from the base image, the prepare-container phase (mount plus every
prepare action), every user command in list order, label configuration, and
the final commit. -/
def allStapelStepsSucceed (b : BuildahOracle) (uuid baseImage : String)
    (opts : BuildStapelStageOpts) : Prop :=
  (∃ r, b.fromCommand ("werf-stage-build-" ++ uuid) baseImage = Except.ok r) ∧
  prepareStage b ("werf-stage-build-" ++ uuid) opts.PrepareContainerActions
    = Except.ok () ∧
  runUserCommands b ("werf-stage-build-" ++ uuid) opts.BuildVolumes opts.UserCommands
    = StepResult.ok () ∧
  b.config ("werf-stage-build-" ++ uuid) opts.Labels = Except.ok () ∧
  (∃ imgID, b.commit ("werf-stage-build-" ++ uuid) = Except.ok imgID)

/-- A buildah oracle on which every engine operation succeeds. -/
def stapelOracle : BuildahOracle :=
  { fromCommand := fun _ _ => Except.ok "cid"
    mount := fun _ => Except.ok "/mnt"
    runCommand := fun _ _ _ => Except.ok ()
    config := fun _ _ => Except.ok ()
    commit := fun _ => Except.ok "sha256:abc" }

/-- A buildah oracle whose container creation fails. -/
def failFromOracle : BuildahOracle :=
  { fromCommand := fun _ _ => Except.error "boom"
    mount := fun _ => Except.ok "/mnt"
    runCommand := fun _ _ _ => Except.ok ()
    config := fun _ _ => Except.ok ()
    commit := fun _ => Except.ok "sha256:abc" }

/-- Stapel-stage options with one prepare action, one user command and one
well-formed volume. -/
def okStapelOpts : BuildStapelStageOpts :=
  { PrepareContainerActions := [fun _ => Except.ok ()]
    UserCommands := ["make"], BuildVolumes := ["/src:/app"]
    Labels := [("werf", "true")] }

/-- Stapel-stage options with a user command and a volume entry lacking the
`:` separator. -/
def badVolOpts : BuildStapelStageOpts :=
  { PrepareContainerActions := [], UserCommands := ["make"]
    BuildVolumes := ["novolumesep"], Labels := [] }

/-- An inspect oracle that reports every reference absent. -/
def inspectAbsent : String → Except String (Option BuildahInspect) :=
  fun _ => Except.ok none

/-- A repository/tag splitter for the witness. -/
def parseRepoTag0 : String → String × String := fun r => (r, "latest")

/-- Build options with a malformed build argument (no `=`). -/
def badArgsOpts : BuildDockerfileOpts :=
  { ContextTar := "", BuildArgs := ["FOO"], Target := "" }

/-! ## Supporting lemmas -/

theorem splitComps_no_slash (c : List Char) :
    ∀ acc, '/' ∉ c → splitComps acc c = [acc.reverse ++ c] := by
  induction c with
  | nil => intro acc _; simp [splitComps]
  | cons ch rest ih =>
    intro acc h
    have hch : ¬ch = '/' := fun he => h (he ▸ List.mem_cons_self ch rest)
    rw [splitComps, if_neg hch, ih (ch :: acc) (fun hm => h (List.mem_cons_of_mem ch hm))]
    simp

theorem splitComps_append (c : List Char) (hc : '/' ∉ c) :
    ∀ (s acc : List Char), splitComps acc (s ++ '/' :: c) = splitComps acc s ++ [c] := by
  intro s
  induction s with
  | nil =>
    intro acc
    have h0 := splitComps_no_slash c [] hc
    simp [splitComps, h0]
  | cons a s ih =>
    intro acc
    by_cases ha : a = '/'
    · subst ha
      simp [splitComps, ih]
    · simp [splitComps, ha, ih]

theorem keepComp_eq_true {c : List Char} (h1 : c ≠ []) (h2 : c ≠ ['.']) :
    keepComp c = true := by
  simp [keepComp, h1, h2]

theorem resolveStack_snoc (r : Bool) (c : List Char) (hc : c ≠ dotdot) :
    ∀ (cs : List (List Char)) (stack : List (List Char)),
      resolveStack r stack (cs ++ [c]) = c :: resolveStack r stack cs := by
  intro cs
  induction cs with
  | nil =>
    intro stack
    cases stack <;> simp [resolveStack, hc]
  | cons d ds ih =>
    intro stack
    cases stack with
    | nil =>
      by_cases hd : d = dotdot
      · subst hd; simp [resolveStack, ih]
      · simp [resolveStack, hd, ih]
    | cons top rest =>
      by_cases hd : d = dotdot
      · subst hd
        by_cases ht : top = dotdot
        · simp [resolveStack, ht, ih]
        · simp [resolveStack, ht, ih]
      · simp [resolveStack, hd, ih]

theorem intercalateSlash_snoc :
    ∀ (xs : List (List Char)) (c : List Char), xs ≠ [] →
      intercalateSlash (xs ++ [c]) = intercalateSlash xs ++ '/' :: c := by
  intro xs
  induction xs with
  | nil => intro c h; cases h rfl
  | cons x xs ih =>
    intro c _
    cases xs with
    | nil => simp [intercalateSlash]
    | cons y ys =>
      have h2 := ih c (by simp)
      show x ++ '/' :: intercalateSlash ((y :: ys) ++ [c])
          = (x ++ '/' :: intercalateSlash (y :: ys)) ++ '/' :: c
      rw [h2]
      simp

theorem intercalateSlash_snoc_inj (R : List (List Char)) {c1 c2 : List Char}
    (h : intercalateSlash (R ++ [c1]) = intercalateSlash (R ++ [c2])) : c1 = c2 := by
  cases R with
  | nil => simpa [intercalateSlash] using h
  | cons x xs =>
    rw [intercalateSlash_snoc (x :: xs) c1 (by simp),
        intercalateSlash_snoc (x :: xs) c2 (by simp)] at h
    have h2 := List.append_cancel_left h
    exact List.tail_eq_of_cons_eq h2

theorem isRooted_append_comp (s c : List Char) :
    isRooted (s ++ '/' :: c) = isRooted (s ++ ['/']) := by
  cases s <;> simp [isRooted]

theorem cleanResolved_comp (c : List Char) (h : validCompData c) :
    cleanResolved c = [c] := by
  obtain ⟨hne, hns, hnd, hndd⟩ := h
  have hsplit : splitComps [] c = [c] := by
    simpa using splitComps_no_slash c [] hns
  unfold cleanResolved
  rw [hsplit, List.filter_cons_of_pos (keepComp_eq_true hne hnd), List.filter_nil]
  simp [resolveStack, hndd]

theorem goCleanData_comp (c : List Char) (h : validCompData c) : goCleanData c = c := by
  have hres : cleanResolved c = [c] := cleanResolved_comp c h
  obtain ⟨hne, hns, hnd, hndd⟩ := h
  have hroot : isRooted c = false := by
    cases c with
    | nil => cases hne rfl
    | cons ch t =>
      have hch : ¬ch = '/' := fun he => hns (he ▸ List.mem_cons_self ch t)
      simp [isRooted, hch]
  unfold goCleanData
  rw [if_neg hne, hroot, hres]
  simp [intercalateSlash, hne]

theorem cleanResolved_append_comp (s : List Char) {c : List Char}
    (h : validCompData c) :
    cleanResolved (s ++ '/' :: c)
      = (resolveStack (isRooted (s ++ ['/'])) []
          ((splitComps [] s).filter keepComp)).reverse ++ [c] := by
  obtain ⟨hne, hns, hnd, hndd⟩ := h
  have hcomp : (splitComps [] (s ++ '/' :: c)).filter keepComp
      = (splitComps [] s).filter keepComp ++ [c] := by
    rw [splitComps_append c hns s [], List.filter_append,
        List.filter_cons_of_pos (keepComp_eq_true hne hnd), List.filter_nil]
  unfold cleanResolved
  rw [isRooted_append_comp s c, hcomp,
      resolveStack_snoc (isRooted (s ++ ['/'])) c hndd, List.reverse_cons]

theorem goCleanData_append_inj (s : List Char) {c1 c2 : List Char}
    (h1 : validCompData c1) (h2 : validCompData c2)
    (heq : goCleanData (s ++ '/' :: c1) = goCleanData (s ++ '/' :: c2)) : c1 = c2 := by
  have hp1 : s ++ '/' :: c1 ≠ [] := by simp
  have hp2 : s ++ '/' :: c2 ≠ [] := by simp
  have hres1 := cleanResolved_append_comp s h1
  have hres2 := cleanResolved_append_comp s h2
  set R := (resolveStack (isRooted (s ++ ['/'])) []
    ((splitComps [] s).filter keepComp)).reverse with hRdef
  unfold goCleanData at heq
  rw [if_neg hp1, if_neg hp2, isRooted_append_comp s c1, isRooted_append_comp s c2,
      hres1, hres2] at heq
  cases hr : isRooted (s ++ ['/']) with
  | true =>
    rw [hr] at heq
    simp only [if_true] at heq
    exact intercalateSlash_snoc_inj R (List.tail_eq_of_cons_eq heq)
  | false =>
    rw [hr] at heq
    have hne1' : R ++ [c1] ≠ [] := by simp
    have hne2' : R ++ [c2] ≠ [] := by simp
    simp only [Bool.false_eq_true, if_false, if_neg hne1', if_neg hne2'] at heq
    exact intercalateSlash_snoc_inj R heq

theorem string_append_left_cancel {p a b : String} (h : p ++ a = p ++ b) : a = b := by
  have hd : p.data ++ a.data = p.data ++ b.data := by
    have h2 := congrArg String.data h
    simpa [String.data_append] using h2
  cases a; cases b
  exact congrArg String.mk (List.append_cancel_left hd)

theorem goJoinData_two (b c : List Char) (hb : b ≠ []) (hc : c ≠ []) :
    goJoinData [b, c] = goCleanData (b ++ '/' :: c) := by
  cases b with
  | nil => cases hb rfl
  | cons x xs =>
    cases c with
    | nil => cases hc rfl
    | cons y ys => simp [goJoinData, List.filter, intercalateSlash]

theorem goJoinData_nil_left (c : List Char) (hc : c ≠ []) :
    goJoinData [[], c] = goCleanData c := by
  cases c with
  | nil => cases hc rfl
  | cons y ys => simp [goJoinData, List.filter, intercalateSlash]

theorem goJoin_inj_on_comps (base : String) {c1 c2 : String}
    (h1 : validClientID c1) (h2 : validClientID c2)
    (h : goJoin base c1 = goJoin base c2) : c1 = c2 := by
  have hd : goJoinData [base.data, c1.data] = goJoinData [base.data, c2.data] :=
    congrArg String.data h
  have hne1 : c1.data ≠ [] := h1.1
  have hne2 : c2.data ≠ [] := h2.1
  by_cases hb : base.data = []
  · rw [hb, goJoinData_nil_left c1.data hne1, goJoinData_nil_left c2.data hne2,
        goCleanData_comp c1.data h1, goCleanData_comp c2.data h2] at hd
    cases c1; cases c2
    exact congrArg String.mk hd
  · rw [goJoinData_two base.data c1.data hb hne1,
        goJoinData_two base.data c2.data hb hne2] at hd
    have h3 := goCleanData_append_inj base.data h1 h2 hd
    cases c1; cases c2
    exact congrArg String.mk h3

theorem splitFirst_eq_none_iff (sep : Char) (l : List Char) :
    splitFirst sep l = none ↔ sep ∉ l := by
  induction l with
  | nil => simp [splitFirst]
  | cons c rest ih =>
    by_cases hc : c = sep
    · subst hc; simp [splitFirst]
    · cases h : splitFirst sep rest with
      | none =>
        have hr : sep ∉ rest := ih.mp h
        simp [splitFirst, hc, h, hr]
        exact fun he => hc he.symm
      | some ab =>
        have hr : sep ∈ rest := by
          by_contra hn
          rw [← ih] at hn
          rw [h] at hn
          cases hn
        simp [splitFirst, hc, h, hr]

theorem parseBuildArgs_ne_ok_of_bad (args : List String)
    (h : ∃ a ∈ args, splitFirst '=' a.data = none) :
    ∀ m, parseBuildArgs args ≠ Except.ok m := by
  induction args with
  | nil => simp at h
  | cons a rest ih =>
    intro m hm
    rcases h with ⟨b, hb, hbad⟩
    cases ha : splitFirst '=' a.data with
    | none => simp [parseBuildArgs, ha] at hm
    | some kv =>
      rcases List.mem_cons.mp hb with hb1 | hb1
      · subst hb1; rw [hbad] at ha; cases ha
      · cases hr : parseBuildArgs rest with
        | error e => simp [parseBuildArgs, ha, hr] at hm
        | ok mm => exact ih ⟨b, hb1, hbad⟩ mm hr

theorem parseBuildArgs_ok_of_good (args : List String)
    (h : ∀ a ∈ args, splitFirst '=' a.data ≠ none) :
    parseBuildArgs args = Except.ok (args.map splitKV) := by
  induction args with
  | nil => simp [parseBuildArgs]
  | cons a rest ih =>
    cases ha : splitFirst '=' a.data with
    | none => exact absurd ha (h a (List.mem_cons_self a rest))
    | some kv =>
      have hrest := ih (fun b hb => h b (List.mem_cons_of_mem a hb))
      simp [parseBuildArgs, ha, hrest, splitKV]

theorem parseVolumes_panicked_of_bad (vols : List String)
    (h : ∃ v ∈ vols, splitFirst ':' v.data = none) :
    ∃ m, parseVolumes vols = StepResult.panicked m := by
  induction vols with
  | nil => simp at h
  | cons v rest ih =>
    cases hv : splitFirst ':' v.data with
    | none =>
      exact ⟨"invalid volume \"" ++ v ++ "\": expected SOURCE:DESTINATION format",
        by simp [parseVolumes, hv]⟩
    | some sd =>
      obtain ⟨src, dst⟩ := sd
      rcases h with ⟨w, hw, hbad⟩
      rcases List.mem_cons.mp hw with hw1 | hw1
      · subst hw1; rw [hbad] at hv; cases hv
      · rcases ih ⟨w, hw1, hbad⟩ with ⟨m, hm⟩
        exact ⟨m, by simp [parseVolumes, hv, hm]⟩

theorem runUserCommands_cons_panicked (b : BuildahOracle) (cid : String)
    (vols : List String) (cmd : String) (rest : List String) {m : String}
    (h : parseVolumes vols = StepResult.panicked m) :
    runUserCommands b cid vols (cmd :: rest) = StepResult.panicked m := by
  simp [runUserCommands, h]

/-! ## Claim theorems -/

/-- C1 counterexample: as stated the claim is false for the local backend,
because `filepath.Join` cleans the joined path — the distinct clientIDs `a`
and `a/` both map to the directory `/base/lock/a` (resp. `/base/cache/a`), so
two distinct clientIDs can map to the same storage location. -/
theorem C1_distinct_clients_same_dir :
    ("a" : String) ≠ "a/" ∧
    (runSynchronization "/root/.werf" cexCmdData).lockManagerLocation "a"
      = (runSynchronization "/root/.werf" cexCmdData).lockManagerLocation "a/" ∧
    (runSynchronization "/root/.werf" cexCmdData).stagesStorageCacheLocation "a"
      = (runSynchronization "/root/.werf" cexCmdData).stagesStorageCacheLocation "a/" := by
  refine ⟨by decide, ?_, ?_⟩ <;> rfl

/-- C1 (amended): for any two distinct clientIDs that are clean path
components (non-empty, without `/`, and neither `.` nor `..`), the lock
manager locations are distinct and the stages-storage-cache locations are
distinct, under either backend: the cluster factories name them
`<prefix><clientID>` (injective unconditionally) and the local factories root
them at `filepath.Join(baseDir, clientID)` (injective on clean components). -/
theorem C1_tenant_location_isolation (homeDir : String) (d : CmdData) (c1 c2 : String)
    (h1 : validClientID c1) (h2 : validClientID c2) (hne : c1 ≠ c2) :
    (runSynchronization homeDir d).lockManagerLocation c1
      ≠ (runSynchronization homeDir d).lockManagerLocation c2 ∧
    (runSynchronization homeDir d).stagesStorageCacheLocation c1
      ≠ (runSynchronization homeDir d).stagesStorageCacheLocation c2 := by
  unfold runSynchronization
  by_cases hk : d.kubernetes = true <;> simp [hk]
  · exact fun h => hne (string_append_left_cancel h)
  · constructor <;> exact fun h => hne (goJoin_inj_on_comps _ h1 h2 h)

/-- Witness for the amended C1 at a concrete configuration and two concrete
clean clientIDs. -/
theorem C1_tenant_location_isolation_witness :
    (runSynchronization "/root/.werf" cexCmdData).lockManagerLocation "alpha"
      ≠ (runSynchronization "/root/.werf" cexCmdData).lockManagerLocation "beta" ∧
    (runSynchronization "/root/.werf" cexCmdData).stagesStorageCacheLocation "alpha"
      ≠ (runSynchronization "/root/.werf" cexCmdData).stagesStorageCacheLocation "beta" :=
  C1_tenant_location_isolation "/root/.werf" cexCmdData "alpha" "beta"
    (by decide) (by decide) (by decide)

/-- C2: Backend selection is a single startup-time decision: the installed
factory pair is a pure function of the startup flags, the Kubernetes mode flag
alone decides which backend both factories use, and for every request
(clientID) the installed factories produce a cluster location exactly when the
flag selected the cluster mode — the pair is never re-branched per request. -/
theorem C2_backend_selection (homeDir : String) (d : CmdData) (clientID : String) :
    ((runSynchronization homeDir d).lockManagerLocation clientID).isCluster = d.kubernetes ∧
    ((runSynchronization homeDir d).stagesStorageCacheLocation clientID).isCluster
      = d.kubernetes := by
  unfold runSynchronization
  by_cases hk : d.kubernetes = true <;> simp [hk, StorageLocation.isCluster]

/-- C3 (code bug): the TTL configuration is parsed but discarded —
`runSynchronization` never passes `cmdData.TTL` to the server or to either
factory, so the server configuration is entirely independent of the TTL
value, contradicting the flag's own documentation ("Time to live for
lock-manager locks and stages-storage-cache records"). -/
theorem C3_ttl_discarded (homeDir : String) (d : CmdData) (t : String) :
    runSynchronization homeDir { d with ttl := t } = runSynchronization homeDir d := by
  cases d; rfl

/-- C4: when host (resp. port) is supplied by neither flag nor environment
variable (empty string), the server binds to `localhost` (resp. `55581`);
otherwise the supplied value is used unchanged. -/
theorem C4_host_port_defaults (homeDir : String) (d : CmdData) :
    (runSynchronization homeDir d).host = (if d.host = "" then "localhost" else d.host) ∧
    (runSynchronization homeDir d).port = (if d.port = "" then "55581" else d.port) := by
  unfold runSynchronization
  by_cases hk : d.kubernetes = true <;> simp [hk]

/-- C5: under the Kubernetes backend, for every clientID both the lock manager
and the stages-storage cache are created against the namespace
`<prefix><clientID>`, with the prefix defaulting to `werf-synchronization-`
when not configured. -/
theorem C5_cluster_namespaces (homeDir : String) (d : CmdData) (clientID : String)
    (hk : d.kubernetes = true) :
    (runSynchronization homeDir d).lockManagerLocation clientID
      = StorageLocation.kubernetesNamespace
          ((if d.kubernetesNamespacePrefix = "" then "werf-synchronization-"
            else d.kubernetesNamespacePrefix) ++ clientID) ∧
    (runSynchronization homeDir d).stagesStorageCacheLocation clientID
      = StorageLocation.kubernetesNamespace
          ((if d.kubernetesNamespacePrefix = "" then "werf-synchronization-"
            else d.kubernetesNamespacePrefix) ++ clientID) := by
  unfold runSynchronization
  simp [hk]

/-- Witness for C5 at a concrete configuration and clientID. -/
theorem C5_cluster_namespaces_witness :
    (runSynchronization "/root/.werf" kubeCmdData).lockManagerLocation "my-project"
      = StorageLocation.kubernetesNamespace "werf-synchronization-my-project" ∧
    (runSynchronization "/root/.werf" kubeCmdData).stagesStorageCacheLocation "my-project"
      = StorageLocation.kubernetesNamespace "werf-synchronization-my-project" := by
  have h := C5_cluster_namespaces "/root/.werf" kubeCmdData "my-project" rfl
  simpa using h

/-- C6: under the local backend, for every clientID the lock manager is rooted
at `filepath.Join(lockManagerBaseDir, clientID)` and the stages-storage cache
at `filepath.Join(stagesStorageCacheBaseDir, clientID)`, the base directories
defaulting to `<werf-home>/synchronization_server/lock_manager` and
`<werf-home>/synchronization_server/stages_storage_cache` when not
configured. -/
theorem C6_local_directories (homeDir : String) (d : CmdData) (clientID : String)
    (hk : d.kubernetes = false) :
    (runSynchronization homeDir d).lockManagerLocation clientID
      = StorageLocation.localDir
          (goJoin
            (if d.localLockManagerBaseDir = "" then
              goJoin3 homeDir "synchronization_server" "lock_manager"
             else d.localLockManagerBaseDir)
            clientID) ∧
    (runSynchronization homeDir d).stagesStorageCacheLocation clientID
      = StorageLocation.localDir
          (goJoin
            (if d.localStagesStorageCacheBaseDir = "" then
              goJoin3 homeDir "synchronization_server" "stages_storage_cache"
             else d.localStagesStorageCacheBaseDir)
            clientID) := by
  unfold runSynchronization
  simp [hk]

/-- Witness for C6 at a concrete configuration: the default base directories
under the werf home directory, with the clientID as subdirectory. -/
theorem C6_local_directories_witness :
    (runSynchronization "/root/.werf" localCmdData).lockManagerLocation "my-project"
      = StorageLocation.localDir "/root/.werf/synchronization_server/lock_manager/my-project" ∧
    (runSynchronization "/root/.werf" localCmdData).stagesStorageCacheLocation "my-project"
      = StorageLocation.localDir
          "/root/.werf/synchronization_server/stages_storage_cache/my-project" := by
  have h := C6_local_directories "/root/.werf" localCmdData "my-project" rfl
  rw [h.1, h.2]
  exact ⟨by congr 1, by congr 1⟩

/-- C7: `GetImageInfo` returns the not-found indication (`nil, nil`) exactly
when the engine inspect reports the reference absent; when the reference
exists it returns a descriptor populated with the reference's labels, creation
time, parent identifier and size; and it returns a non-nil error exactly when
the inspect itself fails. -/
theorem C7_getImageInfo (inspect : String → Except String (Option BuildahInspect))
    (parseRepoTag : String → String × String) (ref : String) :
    (GetImageInfo inspect parseRepoTag ref = Except.ok none ↔ inspect ref = Except.ok none) ∧
    (∀ i, inspect ref = Except.ok (some i) →
      GetImageInfo inspect parseRepoTag ref = Except.ok (some
        { Name := ref, Repository := (parseRepoTag ref).1, Tag := (parseRepoTag ref).2,
          Labels := i.Docker.Config.Labels, CreatedAtUnixNano := i.Docker.Created,
          OnBuild := i.Docker.Config.OnBuild, ID := i.Docker.ID,
          ParentID := i.Docker.Config.Image, Size := i.Docker.Size })) ∧
    ((∃ e, GetImageInfo inspect parseRepoTag ref = Except.error e) ↔
      (∃ e, inspect ref = Except.error e)) := by
  cases h : inspect ref with
  | error e => simp [GetImageInfo, h]
  | ok o => cases o <;> simp [GetImageInfo, h]

/-- Witness for C7: an absent reference yields the `nil, nil` indication. -/
theorem C7_getImageInfo_witness :
    GetImageInfo inspectAbsent parseRepoTag0 "ghcr.io/acme/app:v1" = Except.ok none :=
  (C7_getImageInfo inspectAbsent parseRepoTag0 "ghcr.io/acme/app:v1").1.mpr rfl

/-- C8: `BuildStapelStage` returns an identifier with a nil error exactly when
every step succeeds in order (container creation, the prepare-container phase,
every user command in list order, label configuration, the final commit); the
returned identifier is the committed one; every error return carries the empty
identifier; and when some step fails the result is an empty identifier with a
non-nil error (or, only for the malformed-volume panic, a panic). -/
theorem C8_buildStapelStage (b : BuildahOracle) (uuid baseImage : String)
    (opts : BuildStapelStageOpts) :
    ((∃ imgID, BuildStapelStage b uuid baseImage opts = StageResult.ret imgID none) ↔
      allStapelStepsSucceed b uuid baseImage opts) ∧
    (∀ imgID, BuildStapelStage b uuid baseImage opts = StageResult.ret imgID none →
      b.commit ("werf-stage-build-" ++ uuid) = Except.ok imgID) ∧
    (∀ imgID e, BuildStapelStage b uuid baseImage opts = StageResult.ret imgID (some e) →
      imgID = "") ∧
    (¬allStapelStepsSucceed b uuid baseImage opts →
      (∃ e, BuildStapelStage b uuid baseImage opts = StageResult.ret "" (some e)) ∨
      (∃ m, BuildStapelStage b uuid baseImage opts = StageResult.panicked m)) := by
  unfold allStapelStepsSucceed
  cases hf : b.fromCommand ("werf-stage-build-" ++ uuid) baseImage with
  | error e => simp [BuildStapelStage, hf]
  | ok r =>
    cases hp : prepareStage b ("werf-stage-build-" ++ uuid) opts.PrepareContainerActions with
    | error e => simp [BuildStapelStage, hf, hp]
    | ok u =>
      cases u
      cases hu : runUserCommands b ("werf-stage-build-" ++ uuid)
          opts.BuildVolumes opts.UserCommands with
      | panicked m => simp [BuildStapelStage, hf, hp, hu]
      | err e => simp [BuildStapelStage, hf, hp, hu]
      | ok u2 =>
        cases u2
        cases hc : b.config ("werf-stage-build-" ++ uuid) opts.Labels with
        | error e => simp [BuildStapelStage, hf, hp, hu, hc]
        | ok u3 =>
          cases u3
          cases hcm : b.commit ("werf-stage-build-" ++ uuid) with
          | error e => simp [BuildStapelStage, hf, hp, hu, hc, hcm]
          | ok imgID => simp [BuildStapelStage, hf, hp, hu, hc, hcm]

/-- Witness for C8: on an all-succeeding oracle with a prepare action, a user
command and a well-formed volume, `BuildStapelStage` returns an identifier
with a nil error. -/
theorem C8_buildStapelStage_witness :
    ∃ imgID, BuildStapelStage stapelOracle "u2" "alpine" okStapelOpts
      = StageResult.ret imgID none :=
  (C8_buildStapelStage stapelOracle "u2" "alpine" okStapelOpts).1.mpr
    ⟨⟨"cid", rfl⟩, rfl, rfl, rfl, ⟨"sha256:abc", rfl⟩⟩

/-- C9 counterexample: with at least one user command and a `BuildVolumes`
entry lacking `:`, the claim says the call panics — but when container
creation fails first, `BuildStapelStage` returns an ordinary error without
ever reaching the volume parsing, so the call does not panic. -/
theorem C9_no_panic_when_from_fails :
    badVolOpts.UserCommands ≠ [] ∧
    (∃ v ∈ badVolOpts.BuildVolumes, ':' ∉ v.data) ∧
    BuildStapelStage failFromOracle "u1" "alpine" badVolOpts
      = StageResult.ret ""
          (some "unable to create container using base image \"alpine\": boom") ∧
    (∀ m, StageResult.ret ""
        (some "unable to create container using base image \"alpine\": boom")
      ≠ StageResult.panicked m) :=
  ⟨by decide, ⟨"novolumesep", by decide, by decide⟩, rfl, fun m h => by cases h⟩

/-- C9 (amended): provided container creation and the prepare-container phase
succeed, a call with at least one user command and some `BuildVolumes` entry
containing no `:` separator panics while constructing the bind mounts instead
of returning an error value; a call with no user commands never inspects
`BuildVolumes` and so never panics. -/
theorem C9_bad_volume_panics (b : BuildahOracle) (uuid baseImage : String)
    (opts : BuildStapelStageOpts) :
    ((opts.UserCommands ≠ []) →
      (∃ v ∈ opts.BuildVolumes, ':' ∉ v.data) →
      (∃ r, b.fromCommand ("werf-stage-build-" ++ uuid) baseImage = Except.ok r) →
      prepareStage b ("werf-stage-build-" ++ uuid) opts.PrepareContainerActions
        = Except.ok () →
      ∃ m, BuildStapelStage b uuid baseImage opts = StageResult.panicked m) ∧
    (opts.UserCommands = [] →
      ∀ m, BuildStapelStage b uuid baseImage opts ≠ StageResult.panicked m) := by
  constructor
  · intro hcmds hbadvol hfrom hprep
    rcases hfrom with ⟨r, hf⟩
    have hbad : ∃ v ∈ opts.BuildVolumes, splitFirst ':' v.data = none := by
      rcases hbadvol with ⟨v, hv, hnocolon⟩
      exact ⟨v, hv, (splitFirst_eq_none_iff ':' v.data).mpr hnocolon⟩
    rcases parseVolumes_panicked_of_bad opts.BuildVolumes hbad with ⟨m, hm⟩
    cases hcmd : opts.UserCommands with
    | nil => exact absurd hcmd hcmds
    | cons cmd rest =>
      have hrun := runUserCommands_cons_panicked b ("werf-stage-build-" ++ uuid)
        opts.BuildVolumes cmd rest hm
      refine ⟨m, ?_⟩
      simp [BuildStapelStage, hf, hprep, hcmd, hrun]
  · intro hcmds m hcontra
    have hrun : runUserCommands b ("werf-stage-build-" ++ uuid)
        opts.BuildVolumes opts.UserCommands = StepResult.ok () := by
      rw [hcmds]; rfl
    cases hf : b.fromCommand ("werf-stage-build-" ++ uuid) baseImage with
    | error e => simp [BuildStapelStage, hf] at hcontra
    | ok r =>
      cases hp : prepareStage b ("werf-stage-build-" ++ uuid)
          opts.PrepareContainerActions with
      | error e => simp [BuildStapelStage, hf, hp] at hcontra
      | ok u =>
        cases u
        cases hc : b.config ("werf-stage-build-" ++ uuid) opts.Labels with
        | error e => simp [BuildStapelStage, hf, hp, hrun, hc] at hcontra
        | ok u2 =>
          cases u2
          cases hcm : b.commit ("werf-stage-build-" ++ uuid) with
          | error e => simp [BuildStapelStage, hf, hp, hrun, hc, hcm] at hcontra
          | ok imgID => simp [BuildStapelStage, hf, hp, hrun, hc, hcm] at hcontra

/-- Witness for the amended C9: with every earlier step succeeding, the
malformed volume entry makes `BuildStapelStage` panic. -/
theorem C9_bad_volume_panics_witness :
    ∃ m, BuildStapelStage stapelOracle "u1" "alpine" badVolOpts
      = StageResult.panicked m :=
  (C9_bad_volume_panics stapelOracle "u1" "alpine" badVolOpts).1
    (by decide) ⟨"novolumesep", by decide, by decide⟩ ⟨"cid", rfl⟩ rfl

/-- C10: `BuildDockerfile` returns an error — independently of the build
engine, which is therefore never invoked — whenever some element of
`opts.BuildArgs` contains no `=`; otherwise every argument is split at its
first `=` into a key mapped to the remainder, and the engine is invoked with
exactly those pairs. -/
theorem C10_buildDockerfile (dockerfile : String) (opts : BuildDockerfileOpts) :
    ((∃ a ∈ opts.BuildArgs, '=' ∉ a.data) →
      ∃ e, ∀ engine, BuildDockerfile engine dockerfile opts = Except.error e) ∧
    ((∀ a ∈ opts.BuildArgs, '=' ∈ a.data) →
      ∀ engine, BuildDockerfile engine dockerfile opts
        = engine dockerfile opts.ContextTar (opts.BuildArgs.map splitKV) opts.Target) := by
  constructor
  · intro h
    have hbad : ∃ a ∈ opts.BuildArgs, splitFirst '=' a.data = none := by
      rcases h with ⟨a, ha, hno⟩
      exact ⟨a, ha, (splitFirst_eq_none_iff '=' a.data).mpr hno⟩
    cases hp : parseBuildArgs opts.BuildArgs with
    | error e => exact ⟨e, fun engine => by simp [BuildDockerfile, hp]⟩
    | ok m => exact absurd hp (parseBuildArgs_ne_ok_of_bad opts.BuildArgs hbad m)
  · intro h engine
    have hok := parseBuildArgs_ok_of_good opts.BuildArgs (fun a ha hnone =>
      ((splitFirst_eq_none_iff '=' a.data).mp hnone) (h a ha))
    simp [BuildDockerfile, hok]

/-- Witness for C10: the malformed argument `FOO` makes `BuildDockerfile`
fail uniformly over all engines. -/
theorem C10_buildDockerfile_witness :
    ∃ e, ∀ engine, BuildDockerfile engine "FROM alpine" badArgsOpts = Except.error e :=
  (C10_buildDockerfile "FROM alpine" badArgsOpts).1 ⟨"FOO", by decide, by decide⟩

/-- Sanity check of the `filepath.Join` model against Go's documented
behaviour on concrete inputs (separator collapsing, `.`/`..` resolution,
empty elements, rootedness). -/
theorem goJoin_model_checks :
    goJoin "/base" "a" = "/base/a" ∧
    goJoin "/base" "a/" = "/base/a" ∧
    goJoin "/base" "./a" = "/base/a" ∧
    goJoin "" "a" = "a" ∧
    goJoin "/base" ".." = "/" ∧
    goJoin "x" "../../a" = "../a" ∧
    goJoin3 "/home" "synchronization_server" "lock_manager"
      = "/home/synchronization_server/lock_manager" := by
  refine ⟨?_, ?_, ?_, ?_, ?_, ?_, ?_⟩ <;> decide

end Werf
